import Mathlib

/-!
# Verification of the lytics-team-mcp knowledge-base core

Shallow embedding of the repository's ingestion and retrieval engine:

* `SupabaseDB.compressContent` / `SupabaseDB.decompressContent`
  (src/db/supabase.ts): gzip + base64 codec with legacy fallback.
  The Node built-ins `gzipSync` / `gunzipSync` are external library calls
  and are taken as parameters (`gzipF`, `gunzipF`); `Buffer`'s base64 and
  UTF-8 conversions are modelled concretely below.
* `SupabaseDB.saveConversation`, `getConversation`, `listConversations`,
  `deleteConversation`, `updateVisibility` (src/db/supabase.ts): the
  PostgREST queries, modelled as pure functions over a list of rows.
* `search_conversations` (the server-side SQL function from the repo's
  setup script quoted in README.md): team/visibility/threshold filtering,
  distance ordering, and limit.
* `saveConversation`, `findRecentExportedConversation`, `validateContent`
  (src/tools/save.js sources): content resolution and validation.
* `searchConversations` / `findRelatedConversations` (src/tools/search.ts)
  and the retrieve tools (src/tools/retrieve.ts).
* `EmbeddingService.generateSummary` (src/embeddings/huggingface.ts): the
  hosted summarization call is a parameter; the excerpt fallback is code.

The filesystem is modelled as a snapshot (`FS`): `files` maps a full path
to its contents when readable, `dirList` maps a directory to its listing
when `readdirSync` succeeds (`none` models a thrown error).
-/

/-! ## Base64 (model of Node `Buffer.toString('base64')` / `Buffer.from(s,'base64')`) -/

def base64Alphabet : List Char :=
  "ABCDEFGHIJKLMNOPQRSTUVWXYZabcdefghijklmnopqrstuvwxyz0123456789+/".data

/-- The base64 digit for a 6-bit value. -/
def b64Char (n : Nat) : Char := base64Alphabet.getD (n % 64) 'A'

/-- Byte stream to base64 characters, RFC 4648 with padding. -/
def b64EncodeBytes : List Nat → List Char
  | [] => []
  | [a] => [b64Char (a / 4), b64Char (a % 4 * 16), '=', '=']
  | [a, b] => [b64Char (a / 4), b64Char (a % 4 * 16 + b / 16), b64Char (b % 16 * 4), '=']
  | a :: b :: c :: rest =>
      b64Char (a / 4) :: b64Char (a % 4 * 16 + b / 16) ::
        b64Char (b % 16 * 4 + c / 64) :: b64Char (c % 64) :: b64EncodeBytes rest

def b64Encode (bs : List Nat) : String := String.mk (b64EncodeBytes bs)

/-- Value of a base64 digit; `none` for characters outside the alphabet
(Node's forgiving decoder skips them, including `=`). -/
def b64Value (c : Char) : Option Nat :=
  let i := base64Alphabet.indexOf c
  if i < 64 then some i else none

/-- Groups of four sextets to three bytes; a trailing group of two or three
sextets yields one or two bytes (Node's forgiving decoder). -/
def b64DecodeSextets : List Nat → List Nat
  | s0 :: s1 :: s2 :: s3 :: rest =>
      (s0 * 4 + s1 / 16) :: (s1 % 16 * 16 + s2 / 4) :: (s2 % 4 * 64 + s3) ::
        b64DecodeSextets rest
  | [s0, s1] => [s0 * 4 + s1 / 16]
  | [s0, s1, s2] => [s0 * 4 + s1 / 16, s1 % 16 * 16 + s2 / 4]
  | _ => []

def b64Decode (s : String) : List Nat := b64DecodeSextets (s.data.filterMap b64Value)

/-! ## UTF-8 (model of `Buffer.from(s,'utf-8')` / `buf.toString('utf-8')`) -/

/-- UTF-8 bytes of one code point. -/
def utf8EncodeChar (n : Nat) : List Nat :=
  if n < 128 then [n]
  else if n < 2048 then [192 + n / 64, 128 + n % 64]
  else if n < 65536 then [224 + n / 4096, 128 + n / 64 % 64, 128 + n % 64]
  else [240 + n / 262144, 128 + n / 4096 % 64, 128 + n / 64 % 64, 128 + n % 64]

def utf8Encode (s : String) : List Nat := s.data.flatMap (fun c => utf8EncodeChar c.toNat)

/-- U+FFFD, substituted for malformed sequences by Node's lossy decoder. -/
def replChar : Char := Char.ofNat 65533

/-- A UTF-8 continuation byte. -/
def isCont (b : Nat) : Bool := 128 ≤ b && b < 192

/-- Code point of a two-byte sequence. -/
def utf8Val2 (b b1 : Nat) : Nat := (b - 192) * 64 + (b1 - 128)

/-- Code point of a three-byte sequence. -/
def utf8Val3 (b b1 b2 : Nat) : Nat := (b - 224) * 4096 + (b1 - 128) * 64 + (b2 - 128)

/-- Code point of a four-byte sequence. -/
def utf8Val4 (b b1 b2 b3 : Nat) : Nat :=
  (b - 240) * 262144 + (b1 - 128) * 4096 + (b2 - 128) * 64 + (b3 - 128)

/-- Lossy UTF-8 decoding: well-formed sequences decode exactly, malformed
bytes become U+FFFD. -/
def utf8DecodeLoop : List Nat → List Char
  | [] => []
  | b :: bs =>
    if b < 128 then Char.ofNat b :: utf8DecodeLoop bs
    else if b < 194 then replChar :: utf8DecodeLoop bs
    else if b < 224 then
      if 1 ≤ bs.length && isCont (bs.getD 0 0) then
        Char.ofNat (utf8Val2 b (bs.getD 0 0)) :: utf8DecodeLoop (bs.drop 1)
      else replChar :: utf8DecodeLoop bs
    else if b < 240 then
      if (2 ≤ bs.length && (isCont (bs.getD 0 0) && isCont (bs.getD 1 0))) &&
          (2048 ≤ utf8Val3 b (bs.getD 0 0) (bs.getD 1 0) &&
           (utf8Val3 b (bs.getD 0 0) (bs.getD 1 0) < 55296 ||
            57343 < utf8Val3 b (bs.getD 0 0) (bs.getD 1 0))) then
        Char.ofNat (utf8Val3 b (bs.getD 0 0) (bs.getD 1 0)) :: utf8DecodeLoop (bs.drop 2)
      else replChar :: utf8DecodeLoop bs
    else if b < 245 then
      if (3 ≤ bs.length && (isCont (bs.getD 0 0) && (isCont (bs.getD 1 0) && isCont (bs.getD 2 0)))) &&
          (65536 ≤ utf8Val4 b (bs.getD 0 0) (bs.getD 1 0) (bs.getD 2 0) &&
           utf8Val4 b (bs.getD 0 0) (bs.getD 1 0) (bs.getD 2 0) < 1114112) then
        Char.ofNat (utf8Val4 b (bs.getD 0 0) (bs.getD 1 0) (bs.getD 2 0)) ::
          utf8DecodeLoop (bs.drop 3)
      else replChar :: utf8DecodeLoop bs
    else replChar :: utf8DecodeLoop bs
termination_by l => l.length
decreasing_by all_goals (simp [List.length_drop]; try omega)

def utf8DecodeLossy (bs : List Nat) : String := String.mk (utf8DecodeLoop bs)

/-! ### Round-trip lemmas for the concrete codecs -/

theorem b64Value_b64Char_fin : ∀ i : Fin 64, b64Value (b64Char i.val) = some i.val := by decide

theorem b64Value_b64Char {n : Nat} (h : n < 64) : b64Value (b64Char n) = some n :=
  b64Value_b64Char_fin ⟨n, h⟩

theorem b64Value_pad : b64Value '=' = none := by decide

theorem b64Char_ne_pad_fin : ∀ i : Fin 64, b64Char i.val ≠ '=' := by decide

theorem b64Char_ne_pad (n : Nat) : b64Char n ≠ '=' := by
  have h : n % 64 < 64 := Nat.mod_lt _ (by norm_num)
  have h2 := b64Char_ne_pad_fin ⟨n % 64, h⟩
  simp only [b64Char] at h2 ⊢
  rwa [show n % 64 % 64 = n % 64 by omega] at h2

theorem b64_roundtrip_sextets :
    ∀ bs : List Nat, (∀ b ∈ bs, b < 256) →
      b64DecodeSextets ((b64EncodeBytes bs).filterMap b64Value) = bs := by
  intro bs
  induction bs using b64EncodeBytes.induct with
  | case1 =>
    intro _
    simp [b64EncodeBytes, b64DecodeSextets]
  | case2 a =>
    intro h
    have ha : a < 256 := h a (by simp)
    simp only [b64EncodeBytes, List.filterMap_cons,
      b64Value_b64Char (show a / 4 < 64 by omega),
      b64Value_b64Char (show a % 4 * 16 < 64 by omega), b64Value_pad,
      List.filterMap_nil]
    simp only [b64DecodeSextets]
    congr 1
    omega
  | case3 a b =>
    intro h
    have ha : a < 256 := h a (by simp)
    have hb : b < 256 := h b (by simp)
    simp only [b64EncodeBytes, List.filterMap_cons,
      b64Value_b64Char (show a / 4 < 64 by omega),
      b64Value_b64Char (show a % 4 * 16 + b / 16 < 64 by omega),
      b64Value_b64Char (show b % 16 * 4 < 64 by omega), b64Value_pad,
      List.filterMap_nil]
    simp only [b64DecodeSextets]
    congr 1
    · omega
    congr 1
    omega
  | case4 a b c rest ih =>
    intro h
    have ha : a < 256 := h a (by simp)
    have hb : b < 256 := h b (by simp)
    have hc : c < 256 := h c (by simp)
    have hrest : ∀ x ∈ rest, x < 256 := by
      intro x hx
      exact h x (by simp [hx])
    simp only [b64EncodeBytes, List.filterMap_cons,
      b64Value_b64Char (show a / 4 < 64 by omega),
      b64Value_b64Char (show a % 4 * 16 + b / 16 < 64 by omega),
      b64Value_b64Char (show b % 16 * 4 + c / 64 < 64 by omega),
      b64Value_b64Char (show c % 64 < 64 by omega)]
    simp only [b64DecodeSextets]
    congr 1
    · omega
    congr 1
    · omega
    congr 1
    · omega
    exact ih hrest

/-- Decoding the base64 encoding of a byte list recovers it. -/
theorem b64_roundtrip (bs : List Nat) (h : ∀ b ∈ bs, b < 256) :
    b64Decode (b64Encode bs) = bs := by
  simpa [b64Decode, b64Encode] using b64_roundtrip_sextets bs h

theorem char_toNat_lt (c : Char) : c.toNat < 1114112 := by
  have h := c.valid
  rcases h with h | ⟨_, h2⟩
  · exact Nat.lt_trans h (by norm_num)
  · exact h2

theorem char_not_surrogate (c : Char) : c.toNat < 55296 ∨ 57343 < c.toNat := by
  have h := c.valid
  rcases h with h | ⟨h1, _⟩
  · exact Or.inl h
  · exact Or.inr h1

theorem utf8EncodeChar_bytes (c : Char) : ∀ b ∈ utf8EncodeChar c.toNat, b < 256 := by
  have hlt := char_toNat_lt c
  intro b hb
  unfold utf8EncodeChar at hb
  split at hb
  · simp at hb; omega
  · split at hb
    · simp at hb; rcases hb with h | h <;> omega
    · split at hb
      · simp at hb; rcases hb with h | h | h <;> omega
      · simp at hb; rcases hb with h | h | h | h <;> omega

theorem utf8_roundtrip_char (c : Char) (rest : List Nat) :
    utf8DecodeLoop (utf8EncodeChar c.toNat ++ rest) = c :: utf8DecodeLoop rest := by
  have hlt := char_toNat_lt c
  have hsur := char_not_surrogate c
  have hofNat : Char.ofNat c.toNat = c := Char.ofNat_toNat c
  by_cases h1 : c.toNat < 128
  · rw [utf8EncodeChar, if_pos h1]
    simp only [List.cons_append, List.nil_append]
    rw [utf8DecodeLoop.eq_def]
    simp only [if_pos h1]
    rw [hofNat]
  · by_cases h2 : c.toNat < 2048
    · rw [utf8EncodeChar, if_neg h1, if_pos h2]
      simp only [List.cons_append, List.nil_append]
      rw [utf8DecodeLoop.eq_def]
      simp only []
      rw [if_neg (by omega), if_neg (by omega), if_pos (by omega)]
      rw [if_pos (by simp [isCont, List.getD_cons_zero]; omega)]
      simp only [List.getD_cons_zero, List.drop_succ_cons, List.drop_zero]
      have e : utf8Val2 (192 + c.toNat / 64) (128 + c.toNat % 64) = c.toNat := by
        simp only [utf8Val2]; omega
      rw [e, hofNat]
    · by_cases h3 : c.toNat < 65536
      · rw [utf8EncodeChar, if_neg h1, if_neg h2, if_pos h3]
        simp only [List.cons_append, List.nil_append]
        rw [utf8DecodeLoop.eq_def]
        simp only []
        rw [if_neg (by omega), if_neg (by omega), if_neg (by omega), if_pos (by omega)]
        rw [if_pos (by simp [isCont, utf8Val3, List.getD_cons_zero, List.getD_cons_succ]; omega)]
        simp only [List.getD_cons_zero, List.getD_cons_succ, List.drop_succ_cons, List.drop_zero]
        have e : utf8Val3 (224 + c.toNat / 4096) (128 + c.toNat / 64 % 64)
            (128 + c.toNat % 64) = c.toNat := by
          simp only [utf8Val3]; omega
        rw [e, hofNat]
      · rw [utf8EncodeChar, if_neg h1, if_neg h2, if_neg h3]
        simp only [List.cons_append, List.nil_append]
        rw [utf8DecodeLoop.eq_def]
        simp only []
        rw [if_neg (by omega), if_neg (by omega), if_neg (by omega), if_neg (by omega),
          if_pos (by omega)]
        rw [if_pos (by simp [isCont, utf8Val4, List.getD_cons_zero, List.getD_cons_succ]; omega)]
        simp only [List.getD_cons_zero, List.getD_cons_succ, List.drop_succ_cons, List.drop_zero]
        have e : utf8Val4 (240 + c.toNat / 262144) (128 + c.toNat / 4096 % 64)
            (128 + c.toNat / 64 % 64) (128 + c.toNat % 64) = c.toNat := by
          simp only [utf8Val4]; omega
        rw [e, hofNat]

theorem utf8_roundtrip_list (cs : List Char) :
    utf8DecodeLoop (cs.flatMap (fun c => utf8EncodeChar c.toNat)) = cs := by
  induction cs with
  | nil =>
    rw [List.flatMap_nil, utf8DecodeLoop]
  | cons c rest ih =>
    rw [List.flatMap_cons, utf8_roundtrip_char, ih]

/-- Lossy-decoding the UTF-8 encoding of a string recovers it. -/
theorem utf8_roundtrip (s : String) : utf8DecodeLossy (utf8Encode s) = s := by
  rw [utf8DecodeLossy, utf8Encode, utf8_roundtrip_list]

theorem utf8Encode_bytes (s : String) : ∀ b ∈ utf8Encode s, b < 256 := by
  intro b hb
  rw [utf8Encode, List.mem_flatMap] at hb
  obtain ⟨c, _, hc⟩ := hb
  exact utf8EncodeChar_bytes c b hc

/-! ## Data model (src/types.ts) -/

/-- A row of the `conversations` table (the `Conversation` interface plus the
`embedding` column, which `select("*")` also returns; timestamps as `Nat`). -/
structure Conversation where
  id : String
  user_id : String
  team_id : String
  title : String
  summary : Option String
  content : String
  embedding : Option (List Rat)
  is_public : Bool
  tags : List String
  repo_context : Option String
  file_context : List String
  created_at : Nat
  updated_at : Nat
deriving DecidableEq, Repr

/-- The `ConversationInsert` interface. -/
structure ConversationInsert where
  user_id : String
  team_id : String
  title : String
  summary : Option String
  content : String
  embedding : List Rat
  is_public : Bool
  tags : Option (List String)
  repo_context : Option String
  file_context : Option (List String)
deriving DecidableEq, Repr

/-- The `SearchResult` interface: the columns returned by the
`search_conversations` SQL function. -/
structure SearchResult where
  id : String
  title : String
  summary : Option String
  user_id : String
  tags : List String
  similarity : Rat
  created_at : Nat
  repo_context : Option String
deriving DecidableEq, Repr

/-! ## SupabaseDB (src/db/supabase.ts, the compression-enabled class)

The PostgREST client is modelled by pure list operations over the rows of the
`conversations` table; external-service failures (network, malformed
responses) are outside the model, so the `if (error) throw` branches are
dead and each operation simply returns its result. -/

namespace SupabaseDB

/-- Model of `compressContent`: gzip (external, passed as `gzipF`) then base64. -/
def compressContent (gzipF : List Nat → List Nat) (content : String) : String :=
  b64Encode (gzipF (utf8Encode content))

/-- Model of `decompressContent`: base64-decode and gunzip (external, passed as
`gunzipF`; `none` models a `gunzipSync` throw, caught by the `try`), falling
back to the input itself when decoding fails. -/
def decompressContent (gunzipF : List Nat → Option (List Nat)) (compressed : String) : String :=
  match gunzipF (b64Decode compressed) with
  | some decompressed => utf8DecodeLossy decompressed
  | none => compressed

/-- Model of `saveConversation`: insert one row (content compressed); the generated id
and creation timestamp are inputs of the model. `summary || null`,
`tags || []`, `repo_context || null`, `file_context || []` follow JS
truthiness (an empty string is falsy). -/
def saveConversation (gzipF : List Nat → List Nat) (db : List Conversation)
    (conversation : ConversationInsert) (newId : String) (now : Nat) :
    String × List Conversation :=
  let compressedContent := compressContent gzipF conversation.content
  let row : Conversation :=
    { id := newId
      user_id := conversation.user_id
      team_id := conversation.team_id
      title := conversation.title
      summary := match conversation.summary with
        | some s => if s.isEmpty then none else some s
        | none => none
      content := compressedContent
      embedding := some conversation.embedding
      is_public := conversation.is_public
      tags := conversation.tags.getD []
      repo_context := match conversation.repo_context with
        | some r => if r.isEmpty then none else some r
        | none => none
      file_context := conversation.file_context.getD []
      created_at := now
      updated_at := now }
  (newId, row :: db)

/-- The `where` clause of the `search_conversations` SQL function.
`distF` models the pgvector cosine-distance operator applied to a row's
embedding and the query embedding. -/
def searchWhere (distF : List Rat → List Rat → Rat) (queryEmbedding : List Rat)
    (teamIdFilter userIdFilter : String) (includePrivate : Bool)
    (similarityThreshold : Rat) (c : Conversation) : Bool :=
  c.team_id == teamIdFilter &&
    ((c.is_public || (includePrivate && c.user_id == userIdFilter)) &&
      (c.embedding.isSome &&
        decide (similarityThreshold < 1 - distF (c.embedding.getD []) queryEmbedding)))

/-- The `search_conversations` SQL function (from the setup script in
README.md): filter by team, visibility, non-null embedding and similarity
threshold; order by ascending cosine distance; truncate to `match_limit`;
project the result columns with the similarity score. -/
def search_conversations (db : List Conversation) (distF : List Rat → List Rat → Rat)
    (queryEmbedding : List Rat) (teamIdFilter userIdFilter : String)
    (includePrivate : Bool) (matchLimit : Nat) (similarityThreshold : Rat) :
    List SearchResult :=
  let matching := db.filter
    (searchWhere distF queryEmbedding teamIdFilter userIdFilter includePrivate
      similarityThreshold)
  let ordered := matching.mergeSort (fun a b =>
    decide (distF (a.embedding.getD []) queryEmbedding ≤
      distF (b.embedding.getD []) queryEmbedding))
  (ordered.take matchLimit).map (fun c =>
    { id := c.id
      title := c.title
      summary := c.summary
      user_id := c.user_id
      tags := c.tags
      similarity := 1 - distF (c.embedding.getD []) queryEmbedding
      created_at := c.created_at
      repo_context := c.repo_context })

/-- Model of `searchSimilar`: the RPC call, with the fixed `similarity_threshold: 0.7`. -/
def searchSimilar (db : List Conversation) (distF : List Rat → List Rat → Rat)
    (embedding : List Rat) (teamId userId : String) (limit : Nat)
    (includePrivate : Bool) : List SearchResult :=
  search_conversations db distF embedding teamId userId includePrivate limit (7 / 10)

/-- Model of `getConversation`: fetch by id scoped to team (`single()`; `PGRST116`,
no row, yields `null`), then the visibility check, then transparent
decompression (skipped for falsy, i.e. empty, content). -/
def getConversation (gunzipF : List Nat → Option (List Nat)) (db : List Conversation)
    (id teamId userId : String) : Option Conversation :=
  match db.find? (fun c => c.id == id && c.team_id == teamId) with
  | none => none
  | some data =>
    if !data.is_public && data.user_id != userId then none
    else if data.content.isEmpty then some data
    else some { data with content := decompressContent gunzipF data.content }

/-- Options object of `listConversations`. -/
structure ListOptions where
  onlyMine : Bool
  tags : Option (List String)
  limit : Option Nat
  offset : Option Nat
deriving Repr

/-- Model of `listConversations`: team filter, newest-first order, `limit || 20` (with
`range` when a truthy `offset` is given), ownership/visibility filter,
optional tag-superset filter, then per-row decompression. PostgREST applies
all filters before ordering and limiting regardless of builder order. -/
def listConversations (gunzipF : List Nat → Option (List Nat)) (db : List Conversation)
    (teamId userId : String) (options : ListOptions) : List Conversation :=
  let lim : Nat := match options.limit with
    | none => 20
    | some l => if l = 0 then 20 else l
  let filtered := db.filter (fun c =>
    c.team_id == teamId &&
      ((if options.onlyMine then c.user_id == userId
        else c.is_public || c.user_id == userId) &&
        (match options.tags with
         | some ts => if ts.isEmpty then true else ts.all (fun t => c.tags.contains t)
         | none => true)))
  let ordered := filtered.mergeSort (fun a b => decide (b.created_at ≤ a.created_at))
  let limited := match options.offset with
    | some o => if o = 0 then ordered.take lim else (ordered.drop o).take lim
    | none => ordered.take lim
  limited.map (fun c =>
    if c.content.isEmpty then c
    else { c with content := decompressContent gunzipF c.content })

/-- Model of `deleteConversation`: delete rows matching id, owner and team
simultaneously; PostgREST reports no error when nothing matches, so the
function returns `true` regardless of how many rows were affected. -/
def deleteConversation (db : List Conversation) (id userId teamId : String) :
    Bool × List Conversation :=
  (true, db.filter (fun c => !(c.id == id && c.user_id == userId && c.team_id == teamId)))

/-- Model of `updateVisibility`: update `is_public` and `updated_at` on rows matching
id, owner and team; returns `true` regardless of how many rows matched. -/
def updateVisibility (db : List Conversation) (id userId teamId : String)
    (isPublic : Bool) (now : Nat) : Bool × List Conversation :=
  (true, db.map (fun c =>
    if c.id == id && c.user_id == userId && c.team_id == teamId then
      { c with is_public := isPublic, updated_at := now }
    else c))

end SupabaseDB

/-! ## Filesystem snapshot and string helpers for the tools layer -/

/-- Snapshot of the filesystem: `files` is `readFileSync` (with
`existsSync p = (files p).isSome`), `dirList` is `readdirSync`
(`none` models a thrown error). -/
structure FS where
  files : String → Option String
  dirList : String → Option (List String)

/-- Model of `path.join(dir, file)`. -/
def pathJoin (d f : String) : String := d ++ "/" ++ f

/-- Model of `haystack.includes(needle)`. -/
def includesAux (needle : List Char) : List Char → Bool
  | [] => needle.isEmpty
  | c :: rest => needle.isPrefixOf (c :: rest) || includesAux needle rest

def strIncludes (haystack needle : String) : Bool := includesAux needle.data haystack.data

/-- Model of `s.startsWith(p)`. -/
def strStartsWith (s p : String) : Bool := p.data.isPrefixOf s.data

/-- Model of `s.endsWith(p)`. -/
def strEndsWith (s p : String) : Bool := p.data.isSuffixOf s.data

/-- Model of `s.trim()`: strip leading and trailing whitespace. -/
def strTrim (s : String) : String :=
  String.mk (((s.data.dropWhile Char.isWhitespace).reverse.dropWhile
    Char.isWhitespace).reverse)

/-- Model of `s.toLowerCase().replace(/[^a-z0-9]/g, "")`. -/
def normalizeName (s : String) : String :=
  String.mk ((s.data.map Char.toLower).filter (fun c =>
    (97 ≤ c.toNat && c.toNat ≤ 122) || (48 ≤ c.toNat && c.toNat ≤ 57)))

namespace Tools

/-- The zod `SaveConversationSchema` of src/tools/save.ts (after defaults). -/
structure SaveConversationInput where
  title : String
  content : Option String
  file_path : Option String
  is_public : Bool
  tags : Option (List String)
  repo_context : Option String
  file_context : Option (List String)
  generate_summary : Bool
  auto_find_export : Bool
deriving Repr

/-- The `{path, name, mtime}` entries built by
`findRecentExportedConversation` ("mtime" is actually the file's content
length, as in the source). -/
structure FileEntry where
  path : String
  name : String
  mtime : Nat
deriving Repr

/-- One `{path, name, mtime}` entry of the candidate list ("mtime" is the
file's content length, 0 when unreadable, as in the source). -/
def fileEntryFor (fs : FS) (workspacePath f : String) : FileEntry :=
  { path := pathJoin workspacePath f
    name := f
    mtime := match fs.files (pathJoin workspacePath f) with
      | some c => c.length
      | none => 0 }

/-- Model of `findRecentExportedConversation` (src/tools/save.ts): list the workspace,
keep `cursor_*.md` files without "jstag", order by descending "mtime"
(content length, 0 for unreadable files), prefer a file whose normalized
name contains the first 20 characters of the normalized title hint, else
take the first; any listing error is caught and yields `null`. -/
def findRecentExportedConversation (fs : FS) (workspacePath : String)
    (titleHint : Option String) : Option String :=
  match fs.dirList workspacePath with
  | none => none
  | some files =>
    let mdFiles := files.filter (fun f =>
      strStartsWith f "cursor_" && (strEndsWith f ".md" && !(strIncludes f "jstag")))
    if mdFiles.length = 0 then none
    else
      let sortedFiles :=
        (mdFiles.map (fileEntryFor fs workspacePath)).mergeSort
          (fun a b => decide (b.mtime ≤ a.mtime))
      let fromHint : Option String := match titleHint with
        | some t =>
          if t.isEmpty then none
          else
            let normalized := normalizeName t
            match sortedFiles.find? (fun file =>
              strIncludes (normalizeName file.name) (normalized.take 20)) with
            | some file => some file.path
            | none => none
        | none => none
      match fromHint with
      | some p => some p
      | none =>
        match sortedFiles.head? with
        | some file => some file.path
        | none => none

/-- Result of `validateContent`. -/
structure ValidationResult where
  isValid : Bool
  warnings : List String
deriving Repr

/-- Model of `validateContent` (src/tools/save.ts): pure advisory checks. -/
def validateContent (content : String) : ValidationResult :=
  let lines := content.splitOn "\n"
  let w1 : List String :=
    if lines.length < 10 then
      ["Content seems very short. Make sure you're saving the complete conversation."]
    else []
  let hasCodeReferences := strIncludes content "code" ||
    (strIncludes content "function" || strIncludes content "implementation")
  let hasCodeBlocks := strIncludes content "```"
  let w2 : List String :=
    if hasCodeReferences && !hasCodeBlocks then
      w1 ++ ["Content mentions code but contains no code blocks. The conversation may be incomplete."]
    else w1
  let w3 : List String :=
    if strIncludes content "..." && content.length < 1000 then
      w2 ++ ["Content appears to be truncated (contains '...')."]
    else w2
  { isValid := w3.length = 0, warnings := w3 }

/-- The content-resolution prefix of `saveConversation`
(src/tools/save.ts lines 157-182): explicit file first (fatal if missing),
then auto-discovery (the found file is used only when more than 1.5 times
the inline content's length; reading a discovered path that is not readable
throws, aborting the save), else the inline content. JS truthiness: an empty
`file_path` or workspace path is falsy and skips its branch. -/
def resolveContent (fs : FS) (input : SaveConversationInput)
    (workspacePath : Option String) : Except String (String × String) :=
  let content := input.content.getD ""
  let fpOpt : Option String := match input.file_path with
    | some fp => if fp.isEmpty then none else some fp
    | none => none
  let wsOpt : Option String := match workspacePath with
    | some ws => if ws.isEmpty then none else some ws
    | none => none
  match fpOpt with
  | some fp =>
    match fs.files fp with
    | none => Except.error ("File not found: " ++ fp)
    | some text => Except.ok (text, "file: " ++ fp)
  | none =>
    match input.auto_find_export, wsOpt with
    | true, some ws =>
      match findRecentExportedConversation fs ws (some input.title) with
      | some foundFile =>
        match fs.files foundFile with
        | none => Except.error ("ENOENT: no such file or directory, open " ++ foundFile)
        | some autoContent =>
          if (autoContent.length : Rat) > (content.length : Rat) * 1.5 then
            Except.ok (autoContent, "auto-detected file: " ++ foundFile)
          else Except.ok (content, "direct")
      | none => Except.ok (content, "direct")
    | _, _ => Except.ok (content, "direct")

end Tools

/-! ## EmbeddingService (src/embeddings/huggingface.ts) -/

namespace EmbeddingService

/-- Model of `generateSummary`: call the hosted summarization model (`hfSummarize`,
external, with the truncated input); on any failure fall back to the
first 200 characters plus an ellipsis. -/
def generateSummary (hfSummarize : String → Except String String) (content : String) :
    String :=
  let truncatedContent := content.take 3000
  match hfSummarize truncatedContent with
  | Except.ok result => result
  | Except.error _ => content.take 200 ++ "..."

end EmbeddingService

namespace Tools

/-- Result object of the save tool. -/
structure SaveResult where
  id : String
  summary : Option String
  warnings : Option (List String)
  source : String
deriving Repr

/-- Model of `saveConversation` (src/tools/save.ts): resolve content, validate
(advisory), reject empty/whitespace-only content, embed `title\n\ncontent`
(`embed` is the hosted embedding call), optionally summarize, then insert
via `SupabaseDB.saveConversation`. The generated row id and timestamp are
inputs of the model. -/
def saveConversation (fs : FS) (embed : String → Except String (List Rat))
    (hfSummarize : String → Except String String) (gzipF : List Nat → List Nat)
    (db : List Conversation) (input : SaveConversationInput) (teamId userId : String)
    (workspacePath : Option String) (newId : String) (now : Nat) :
    Except String (SaveResult × List Conversation) :=
  match resolveContent fs input workspacePath with
  | Except.error e => Except.error e
  | Except.ok resolved =>
    let content := resolved.1
    let source := resolved.2
    let validation := validateContent content
    let warnings := validation.warnings
    if content.isEmpty || (strTrim content).isEmpty then
      Except.error "No content to save. Please provide either 'content' or 'file_path'."
    else
      match embed (input.title ++ "\n\n" ++ content) with
      | Except.error e => Except.error e
      | Except.ok embedding =>
        let summary : Option String :=
          if input.generate_summary then
            some (EmbeddingService.generateSummary hfSummarize content)
          else none
        let saved := SupabaseDB.saveConversation gzipF db
          { user_id := userId
            team_id := teamId
            title := input.title
            summary := summary
            content := content
            embedding := embedding
            is_public := input.is_public
            tags := input.tags
            repo_context := input.repo_context
            file_context := input.file_context } newId now
        Except.ok ({ id := saved.1
                     summary := summary
                     warnings := if warnings.length > 0 then some warnings else none
                     source := source }, saved.2)

/-- The zod `SearchConversationsSchema` (after defaults). -/
structure SearchConversationsInput where
  query : String
  limit : Nat
  include_private : Bool
deriving Repr

/-- Model of `searchConversations` (src/tools/search.ts): embed the query and call
`searchSimilar` with the caller's limit and privacy opt-in. `embed` models
a successful `generateEmbedding` call; `distF` the pgvector distance. -/
def searchConversations (embed : String → List Rat)
    (distF : List Rat → List Rat → Rat) (db : List Conversation)
    (input : SearchConversationsInput) (teamId userId : String) : List SearchResult :=
  SupabaseDB.searchSimilar db distF (embed input.query) teamId userId
    input.limit input.include_private

/-- The zod `FindRelatedSchema`. -/
structure FindRelatedInput where
  context : String
deriving Repr

/-- Model of `findRelatedConversations` (src/tools/search.ts): embed the context and
call `searchSimilar` with the fixed limit 3 and private records included. -/
def findRelatedConversations (embed : String → List Rat)
    (distF : List Rat → List Rat → Rat) (db : List Conversation)
    (input : FindRelatedInput) (teamId userId : String) : List SearchResult :=
  SupabaseDB.searchSimilar db distF (embed input.context) teamId userId 3 true

/-- Model of `GetConversationSchema`. -/
structure GetConversationInput where
  id : String
deriving Repr

/-- Model of `getConversation` (src/tools/retrieve.ts). -/
def getConversation (gunzipF : List Nat → Option (List Nat)) (db : List Conversation)
    (input : GetConversationInput) (teamId userId : String) : Option Conversation :=
  SupabaseDB.getConversation gunzipF db input.id teamId userId

/-- Model of `ListConversationsSchema` (after defaults). -/
structure ListConversationsInput where
  only_mine : Bool
  tags : Option (List String)
  limit : Nat
deriving Repr

/-- Model of `listConversations` (src/tools/retrieve.ts). -/
def listConversations (gunzipF : List Nat → Option (List Nat)) (db : List Conversation)
    (input : ListConversationsInput) (teamId userId : String) : List Conversation :=
  SupabaseDB.listConversations gunzipF db teamId userId
    { onlyMine := input.only_mine, tags := input.tags, limit := some input.limit,
      offset := none }

/-- Model of `DeleteConversationSchema`. -/
structure DeleteConversationInput where
  id : String
deriving Repr

/-- Result object of the delete and visibility tools. -/
structure SuccessResult where
  success : Bool
deriving Repr

/-- Model of `deleteConversation` (src/tools/retrieve.ts): wraps the store call and
reports its boolean as `{ success }`. -/
def deleteConversation (db : List Conversation) (input : DeleteConversationInput)
    (teamId userId : String) : SuccessResult × List Conversation :=
  let result := SupabaseDB.deleteConversation db input.id userId teamId
  ({ success := result.1 }, result.2)

/-- Model of `UpdateVisibilitySchema`. -/
structure UpdateVisibilityInput where
  id : String
  is_public : Bool
deriving Repr

/-- Model of `updateVisibility` (src/tools/retrieve.ts). -/
def updateVisibility (db : List Conversation) (input : UpdateVisibilityInput)
    (teamId userId : String) (now : Nat) : SuccessResult × List Conversation :=
  let result := SupabaseDB.updateVisibility db input.id userId teamId input.is_public now
  ({ success := result.1 }, result.2)

end Tools

/-! ## Shared lemmas about the similarity search -/

theorem search_conversations_sorted (db : List Conversation)
    (distF : List Rat → List Rat → Rat) (qe : List Rat) (teamId userId : String)
    (includePrivate : Bool) (matchLimit : Nat) (threshold : Rat) :
    (SupabaseDB.search_conversations db distF qe teamId userId includePrivate
      matchLimit threshold).Pairwise (fun a b => b.similarity ≤ a.similarity) := by
  simp only [SupabaseDB.search_conversations]
  rw [List.pairwise_map]
  apply List.Pairwise.sublist (List.take_sublist _ _)
  have hsorted := @List.sorted_mergeSort Conversation
    (fun a b => decide (distF (a.embedding.getD []) qe ≤ distF (b.embedding.getD []) qe))
    (fun a b c hab hbc => by
      simp only [decide_eq_true_eq] at hab hbc ⊢
      exact le_trans hab hbc)
    (fun a b => by
      simp only [Bool.or_eq_true, decide_eq_true_eq]
      exact le_total _ _)
    (db.filter (SupabaseDB.searchWhere distF qe teamId userId includePrivate threshold))
  apply hsorted.imp
  intro a b hab
  simp only [decide_eq_true_eq] at hab
  exact sub_le_sub_left hab 1

theorem search_conversations_threshold (db : List Conversation)
    (distF : List Rat → List Rat → Rat) (qe : List Rat) (teamId userId : String)
    (includePrivate : Bool) (matchLimit : Nat) (threshold : Rat) :
    ∀ r ∈ SupabaseDB.search_conversations db distF qe teamId userId includePrivate
      matchLimit threshold, threshold < r.similarity := by
  intro r hr
  simp only [SupabaseDB.search_conversations, List.mem_map] at hr
  obtain ⟨c, hc, rfl⟩ := hr
  have hc2 := List.mem_of_mem_take hc
  rw [List.mem_mergeSort, List.mem_filter] at hc2
  have hw := hc2.2
  simp only [SupabaseDB.searchWhere, Bool.and_eq_true, decide_eq_true_eq] at hw
  exact hw.2.2.2

theorem search_conversations_length (db : List Conversation)
    (distF : List Rat → List Rat → Rat) (qe : List Rat) (teamId userId : String)
    (includePrivate : Bool) (matchLimit : Nat) (threshold : Rat) :
    (SupabaseDB.search_conversations db distF qe teamId userId includePrivate
      matchLimit threshold).length ≤ matchLimit := by
  simp only [SupabaseDB.search_conversations, List.length_map]
  exact List.length_take_le _ _

theorem search_conversations_provenance (db : List Conversation)
    (distF : List Rat → List Rat → Rat) (qe : List Rat) (teamId userId : String)
    (includePrivate : Bool) (matchLimit : Nat) (threshold : Rat) :
    ∀ r ∈ SupabaseDB.search_conversations db distF qe teamId userId includePrivate
      matchLimit threshold,
      ∃ c, c ∈ db ∧ c.team_id = teamId ∧
        (c.is_public = true ∨ (includePrivate = true ∧ c.user_id = userId)) ∧
        r.id = c.id ∧ r.user_id = c.user_id := by
  intro r hr
  simp only [SupabaseDB.search_conversations, List.mem_map] at hr
  obtain ⟨c, hc, rfl⟩ := hr
  have hc2 := List.mem_of_mem_take hc
  rw [List.mem_mergeSort, List.mem_filter] at hc2
  have hw := hc2.2
  simp only [SupabaseDB.searchWhere, Bool.and_eq_true, beq_iff_eq, Bool.or_eq_true,
    decide_eq_true_eq] at hw
  refine ⟨c, hc2.1, hw.1, ?_, rfl, rfl⟩
  rcases hw.2.1 with h | h
  · exact Or.inl h
  · exact Or.inr ⟨h.1, h.2⟩

/-! ## Sample data used by concrete witnesses -/

/-- A public record by "bob" in team "t1". -/
def samplePublicRecord : Conversation :=
  { id := "r1", user_id := "bob", team_id := "t1", title := "a", summary := none,
    content := "", embedding := some [1], is_public := true, tags := [],
    repo_context := none, file_context := [], created_at := 1, updated_at := 1 }

/-- A private record by "bob" in team "t1". -/
def samplePrivateBob : Conversation :=
  { id := "r2", user_id := "bob", team_id := "t1", title := "b", summary := none,
    content := "", embedding := some [2], is_public := false, tags := [],
    repo_context := none, file_context := [], created_at := 2, updated_at := 2 }

/-- A private record by "alice" in team "t1". -/
def samplePrivateAlice : Conversation :=
  { id := "r3", user_id := "alice", team_id := "t1", title := "c", summary := none,
    content := "", embedding := some [4], is_public := false, tags := [],
    repo_context := none, file_context := [], created_at := 3, updated_at := 3 }

def sampleDb : List Conversation := [samplePublicRecord, samplePrivateBob, samplePrivateAlice]

/-- A sample pgvector distance function (depends only on the row embedding). -/
def sampleDist : List Rat → List Rat → Rat := fun e _ => (e.headD 0) / 20

/-! ## C7 -/

/-- C7: every result sequence returned by `searchSimilar` is sorted in
non-increasing order of similarity, contains no result whose similarity is
at or below the fixed 0.7 threshold, and contains at most `limit` results. -/
theorem c7_search_ranked_filtered_limited (db : List Conversation)
    (distF : List Rat → List Rat → Rat) (embedding : List Rat)
    (teamId userId : String) (limit : Nat) (includePrivate : Bool) :
    (SupabaseDB.searchSimilar db distF embedding teamId userId limit
      includePrivate).Pairwise (fun a b => b.similarity ≤ a.similarity) ∧
    (∀ r ∈ SupabaseDB.searchSimilar db distF embedding teamId userId limit
      includePrivate, (7 : Rat) / 10 < r.similarity) ∧
    (SupabaseDB.searchSimilar db distF embedding teamId userId limit
      includePrivate).length ≤ limit :=
  ⟨search_conversations_sorted db distF embedding teamId userId includePrivate limit (7 / 10),
   search_conversations_threshold db distF embedding teamId userId includePrivate limit (7 / 10),
   search_conversations_length db distF embedding teamId userId includePrivate limit (7 / 10)⟩

theorem c7_witness :
    (SupabaseDB.searchSimilar sampleDb sampleDist [0] "t1" "alice" 2 true).Pairwise
      (fun a b => b.similarity ≤ a.similarity) ∧
    (∀ r ∈ SupabaseDB.searchSimilar sampleDb sampleDist [0] "t1" "alice" 2 true,
      (7 : Rat) / 10 < r.similarity) ∧
    (SupabaseDB.searchSimilar sampleDb sampleDist [0] "t1" "alice" 2 true).length ≤ 2 :=
  c7_search_ranked_filtered_limited sampleDb sampleDist [0] "t1" "alice" 2 true

/-! ## C8 -/

/-- C8: `findRelatedConversations` invokes the similarity search with the
fixed limit 3 and `include_private = true`, hence returns at most 3 results,
and any of the requester's own team records with an embedding and
above-threshold similarity passes the search's visibility filter even when
private. -/
theorem c8_find_related_fixed_params (embed : String → List Rat)
    (distF : List Rat → List Rat → Rat) (db : List Conversation)
    (input : Tools.FindRelatedInput) (teamId userId : String) :
    Tools.findRelatedConversations embed distF db input teamId userId =
      SupabaseDB.searchSimilar db distF (embed input.context) teamId userId 3 true ∧
    (Tools.findRelatedConversations embed distF db input teamId userId).length ≤ 3 ∧
    (∀ c : Conversation, c.team_id = teamId → c.user_id = userId →
      c.embedding.isSome = true →
      (7 : Rat) / 10 < 1 - distF (c.embedding.getD []) (embed input.context) →
      SupabaseDB.searchWhere distF (embed input.context) teamId userId true
        (7 / 10) c = true) := by
  refine ⟨rfl,
    search_conversations_length db distF (embed input.context) teamId userId true 3 (7 / 10),
    ?_⟩
  intro c h1 h2 h3 h4
  simp only [SupabaseDB.searchWhere, Bool.and_eq_true, beq_iff_eq, Bool.or_eq_true,
    Bool.true_and, decide_eq_true_eq]
  exact ⟨h1, Or.inr h2, h3, h4⟩

theorem c8_witness :
    Tools.findRelatedConversations (fun _ => [0]) sampleDist sampleDb
      { context := "ctx" } "t1" "alice" =
      SupabaseDB.searchSimilar sampleDb sampleDist [0] "t1" "alice" 3 true ∧
    (Tools.findRelatedConversations (fun _ => [0]) sampleDist sampleDb
      { context := "ctx" } "t1" "alice").length ≤ 3 ∧
    SupabaseDB.searchWhere sampleDist [0] "t1" "alice" true (7 / 10)
      samplePrivateAlice = true :=
  have h := c8_find_related_fixed_params (fun _ => [0]) sampleDist sampleDb
    { context := "ctx" } "t1" "alice"
  ⟨h.1, h.2.1, h.2.2 samplePrivateAlice rfl rfl rfl (by norm_num [sampleDist, samplePrivateAlice])⟩

/-! ## C9 -/

/-- C9: whenever the hosted summarization call fails, `generateSummary`
returns the first 200 characters of the input followed by "..." instead of
propagating the error (its return type is a plain `String`, so no error can
escape). -/
theorem c9_summary_fallback (hfSummarize : String → Except String String)
    (content e : String) (h : hfSummarize (content.take 3000) = Except.error e) :
    EmbeddingService.generateSummary hfSummarize content = content.take 200 ++ "..." := by
  simp only [EmbeddingService.generateSummary, h]

set_option maxRecDepth 4000 in
theorem c9_witness :
    EmbeddingService.generateSummary (fun _ => Except.error "rate limited") "0123456789" =
      "0123456789..." := by
  rw [c9_summary_fallback (fun _ => Except.error "rate limited") "0123456789" "rate limited" rfl]
  decide

/-! ## C2 -/

/-- C2 counterexample: on a store holding only a record owned by "alice",
a delete and a visibility update issued by non-owner "bob" both report
`success = true`, not `success = false` as claimed (the zero-row match is
not an error for the store, and the code returns `true` whenever no error
was raised). -/
theorem c2_cex_mismatch_reports_true :
    ¬((Tools.deleteConversation [samplePrivateAlice] { id := "r3" } "t1" "bob").1.success
        = false) ∧
    ¬((Tools.updateVisibility [samplePrivateAlice] { id := "r3", is_public := true }
        "t1" "bob" 9).1.success = false) := by
  constructor <;> decide

/-- C2 (amended): when no record matches the id, owner and team
simultaneously, `deleteConversation` and `updateVisibility` are pure no-ops
on the store and raise no error, but they report `success = true` — an
owner/team mismatch is indistinguishable from a successful call, not
reported as `false`. -/
theorem c2_mismatch_noop (db : List Conversation) (id teamId userId : String)
    (isPublic : Bool) (now : Nat)
    (h : ∀ c ∈ db, ¬(c.id = id ∧ c.user_id = userId ∧ c.team_id = teamId)) :
    SupabaseDB.deleteConversation db id userId teamId = (true, db) ∧
    SupabaseDB.updateVisibility db id userId teamId isPublic now = (true, db) ∧
    (Tools.deleteConversation db { id := id } teamId userId).1.success = true ∧
    (Tools.updateVisibility db { id := id, is_public := isPublic } teamId userId
      now).1.success = true := by
  refine ⟨?_, ?_, rfl, rfl⟩
  · unfold SupabaseDB.deleteConversation
    congr 1
    rw [List.filter_eq_self]
    intro c hc
    cases hcond : (c.id == id && c.user_id == userId && c.team_id == teamId) with
    | false => rfl
    | true =>
      exfalso
      simp only [Bool.and_eq_true, beq_iff_eq] at hcond
      exact h c hc ⟨hcond.1.1, hcond.1.2, hcond.2⟩
  · unfold SupabaseDB.updateVisibility
    congr 1
    conv_rhs => rw [← List.map_id db]
    apply List.map_congr_left
    intro c hc
    rw [if_neg]
    · rfl
    intro hcond
    simp only [Bool.and_eq_true, beq_iff_eq] at hcond
    exact h c hc ⟨hcond.1.1, hcond.1.2, hcond.2⟩

theorem c2_mismatch_noop_witness :
    SupabaseDB.deleteConversation [samplePrivateAlice] "r3" "bob" "t1" =
      (true, [samplePrivateAlice]) ∧
    SupabaseDB.updateVisibility [samplePrivateAlice] "r3" "bob" "t1" true 9 =
      (true, [samplePrivateAlice]) ∧
    (Tools.deleteConversation [samplePrivateAlice] { id := "r3" } "t1" "bob").1.success
      = true ∧
    (Tools.updateVisibility [samplePrivateAlice] { id := "r3", is_public := true }
      "t1" "bob" 9).1.success = true :=
  c2_mismatch_noop [samplePrivateAlice] "r3" "t1" "bob" true 9 (by decide)

/-! ## C4 -/

/-- C4 counterexample: instantiating the external gzip pair with a
contract-conforming codec (`gzipF bs = 0 :: bs`, `gunzipF` its inverse),
the string "AB==" is never produced by `compressContent`, yet
`decompressContent` does not return it unchanged: it parses as valid
compressed data (base64 `[0]`, "gunzipped" to `[]`) and decodes to `""`.
So "never produced by compressContent" does not imply "returned
unchanged". -/
theorem c4_cex_decode_not_identity :
    (∀ x : String, SupabaseDB.compressContent (fun bs => 0 :: bs) x ≠ "AB==") ∧
    SupabaseDB.decompressContent
      (fun l => match l with | 0 :: t => some t | _ => none) "AB==" ≠ "AB==" := by
  constructor
  · intro x hx
    have hdata : b64EncodeBytes (0 :: utf8Encode x) = ['A', 'B', '=', '='] := by
      have := congrArg String.data hx
      simpa [SupabaseDB.compressContent, b64Encode] using this
    cases hbs : utf8Encode x with
    | nil =>
      rw [hbs] at hdata
      exact absurd hdata (by decide)
    | cons b1 t1 =>
      cases t1 with
      | nil =>
        rw [hbs] at hdata
        simp only [b64EncodeBytes, List.cons.injEq] at hdata
        exact b64Char_ne_pad _ hdata.2.2.1
      | cons b2 t2 =>
        rw [hbs] at hdata
        simp only [b64EncodeBytes, List.cons.injEq] at hdata
        exact b64Char_ne_pad _ hdata.2.2.1
  · have hb : b64Decode "AB==" = [0] := by decide
    have hcalc : SupabaseDB.decompressContent
        (fun l => match l with | 0 :: t => some t | _ => none) "AB==" = "" := by
      simp only [SupabaseDB.decompressContent, hb]
      show utf8DecodeLossy [] = ""
      simp only [utf8DecodeLossy]
      rw [utf8DecodeLoop]
    rw [hcalc]
    decide

/-- C4 (amended): `decompressContent` is a total function (the decode
attempt is wrapped in a catch, so no input makes it raise), and it returns
its input unchanged exactly when the compressed-decode attempt fails —
which covers legacy uncompressed data that does not parse as base64-encoded
gzip, but not every string outside `compressContent`'s image. -/
theorem c4_legacy_fallback (gunzipF : List Nat → Option (List Nat)) (s : String)
    (h : gunzipF (b64Decode s) = none) :
    SupabaseDB.decompressContent gunzipF s = s := by
  simp only [SupabaseDB.decompressContent, h]

theorem c4_legacy_fallback_witness :
    SupabaseDB.decompressContent (fun _ => none) "plain legacy record text" =
      "plain legacy record text" :=
  c4_legacy_fallback (fun _ => none) "plain legacy record text" rfl

/-! ## C1 -/

/-- C1: a stored record that is private and not owned by the requester is
never returned. `getConversation` only ever returns a record that is public
or owned by the requester and whose team matches (and returns `null`,
indistinguishable from not-found, when the fetched record is private and
foreign); every record returned by `listConversations` is team-matching and
public-or-owned (under `only_mine` ownership is enforced outright); every
`searchSimilar` row stems from a team-matching record that is public or —
only when `include_private` is set — owned by the requester. -/
theorem c1_access_control (gunzipF : List Nat → Option (List Nat))
    (db : List Conversation) (id teamId userId : String) :
    (∀ c, SupabaseDB.getConversation gunzipF db id teamId userId = some c →
      (c.is_public = true ∨ c.user_id = userId) ∧ c.team_id = teamId) ∧
    (∀ data, db.find? (fun c => c.id == id && c.team_id == teamId) = some data →
      data.is_public = false → data.user_id ≠ userId →
      SupabaseDB.getConversation gunzipF db id teamId userId = none) ∧
    (∀ options c, c ∈ SupabaseDB.listConversations gunzipF db teamId userId options →
      (c.is_public = true ∨ c.user_id = userId) ∧ c.team_id = teamId) ∧
    (∀ distF qe limit includePrivate r,
      r ∈ SupabaseDB.searchSimilar db distF qe teamId userId limit includePrivate →
      ∃ c, c ∈ db ∧ c.team_id = teamId ∧
        (c.is_public = true ∨ (includePrivate = true ∧ c.user_id = userId)) ∧
        r.id = c.id ∧ r.user_id = c.user_id) := by
  refine ⟨?_, ?_, ?_, ?_⟩
  · intro c hc
    unfold SupabaseDB.getConversation at hc
    cases hfind : db.find? (fun c => c.id == id && c.team_id == teamId) with
    | none =>
      rw [hfind] at hc
      exact absurd hc (by simp)
    | some data =>
      rw [hfind] at hc
      simp only [] at hc
      have hpred := List.find?_some hfind
      simp only [Bool.and_eq_true, beq_iff_eq] at hpred
      by_cases hvis : (!data.is_public && data.user_id != userId) = true
      · rw [if_pos hvis] at hc
        exact absurd hc (by simp)
      · rw [if_neg hvis] at hc
        simp only [Bool.and_eq_true, Bool.not_eq_true', bne_iff_ne] at hvis
        have hv : data.is_public = true ∨ data.user_id = userId := by
          by_cases hp : data.is_public = true
          · exact Or.inl hp
          · right
            by_contra hne
            exact hvis ⟨by simpa using hp, hne⟩
        by_cases hct : data.content.isEmpty = true
        · rw [if_pos hct] at hc
          injection hc with hcc
          subst hcc
          exact ⟨hv, hpred.2⟩
        · rw [if_neg hct] at hc
          injection hc with hcc
          subst hcc
          exact ⟨hv, hpred.2⟩
  · intro data hfind hpub hne
    unfold SupabaseDB.getConversation
    rw [hfind]
    simp only []
    rw [if_pos]
    simp [hpub, bne_iff_ne, hne]
  · intro options c hc
    simp only [SupabaseDB.listConversations, List.mem_map] at hc
    obtain ⟨c0, hc0, rfl⟩ := hc
    have hord : c0 ∈ (db.filter (fun c =>
        c.team_id == teamId &&
          ((if options.onlyMine then c.user_id == userId
            else c.is_public || c.user_id == userId) &&
            (match options.tags with
             | some ts => if ts.isEmpty then true else ts.all (fun t => c.tags.contains t)
             | none => true)))).mergeSort (fun a b => decide (b.created_at ≤ a.created_at)) := by
      cases hof : options.offset with
      | none =>
        rw [hof] at hc0
        simp only [] at hc0
        exact List.mem_of_mem_take hc0
      | some o =>
        rw [hof] at hc0
        simp only [] at hc0
        by_cases ho : o = 0
        · rw [if_pos ho] at hc0
          exact List.mem_of_mem_take hc0
        · rw [if_neg ho] at hc0
          exact List.mem_of_mem_drop (List.mem_of_mem_take hc0)
    rw [List.mem_mergeSort, List.mem_filter] at hord
    have hpred := hord.2
    simp only [Bool.and_eq_true, beq_iff_eq] at hpred
    have hv : c0.is_public = true ∨ c0.user_id = userId := by
      have hown := hpred.2.1
      by_cases hm : options.onlyMine = true
      · rw [if_pos hm] at hown
        right
        simpa using hown
      · rw [if_neg hm] at hown
        simpa using hown
    by_cases hct : c0.content.isEmpty = true
    · rw [if_pos hct]
      exact ⟨hv, hpred.1⟩
    · rw [if_neg hct]
      exact ⟨hv, hpred.1⟩
  · intro distF qe limit includePrivate r hr
    exact search_conversations_provenance db distF qe teamId userId includePrivate
      limit (7 / 10) r hr

theorem c1_witness :
    ((samplePublicRecord.is_public = true ∨ samplePublicRecord.user_id = "alice") ∧
      samplePublicRecord.team_id = "t1") ∧
    SupabaseDB.getConversation (fun _ => none) sampleDb "r2" "t1" "alice" = none ∧
    ((samplePublicRecord.is_public = true ∨ samplePublicRecord.user_id = "alice") ∧
      samplePublicRecord.team_id = "t1") ∧
    (∃ c, c ∈ [samplePublicRecord] ∧ c.team_id = "t1" ∧
      (c.is_public = true ∨ (false = true ∧ c.user_id = "alice")) ∧
      ({ id := "r1", title := "a", summary := none, user_id := "bob", tags := [],
         similarity := 1 - sampleDist [1] [0], created_at := 1,
         repo_context := none : SearchResult }).id = c.id ∧
      ({ id := "r1", title := "a", summary := none, user_id := "bob", tags := [],
         similarity := 1 - sampleDist [1] [0], created_at := 1,
         repo_context := none : SearchResult }).user_id = c.user_id) := by
  refine ⟨?_, ?_, ?_, ?_⟩
  · exact (c1_access_control (fun _ => none) sampleDb "r1" "t1" "alice").1
      samplePublicRecord (by decide)
  · exact (c1_access_control (fun _ => none) sampleDb "r2" "t1" "alice").2.1
      samplePrivateBob (by decide) rfl (by decide)
  · refine (c1_access_control (fun _ => none) [samplePublicRecord] "r1" "t1" "alice").2.2.1
      { onlyMine := false, tags := none, limit := some 20, offset := none }
      samplePublicRecord ?_
    simp [SupabaseDB.listConversations, samplePublicRecord, List.mergeSort_singleton]
    rfl
  · refine (c1_access_control (fun _ => none) [samplePublicRecord] "r1" "t1" "alice").2.2.2
      sampleDist [0] 5 false _ ?_
    have hs : SupabaseDB.searchSimilar [samplePublicRecord] sampleDist [0] "t1" "alice" 5
        false =
        [{ id := "r1", title := "a", summary := none, user_id := "bob", tags := [],
           similarity := 1 - sampleDist [1] [0], created_at := 1, repo_context := none }] := by
      norm_num [SupabaseDB.searchSimilar, SupabaseDB.search_conversations,
        SupabaseDB.searchWhere, samplePublicRecord, sampleDist, List.mergeSort_singleton]
    rw [hs]
    exact List.mem_singleton.mpr rfl

/-! ## C5 -/

/-- With a single listed candidate that matches the export naming filter,
auto-discovery returns its full path (whether or not the title hint
matches, the singleton is chosen). -/
theorem findRecent_singleton (fs : FS) (ws f : String) (hint : Option String)
    (hdl : fs.dirList ws = some [f])
    (hf : (strStartsWith f "cursor_" && (strEndsWith f ".md" && !(strIncludes f "jstag"))) = true) :
    Tools.findRecentExportedConversation fs ws hint = some (pathJoin ws f) := by
  simp only [Tools.findRecentExportedConversation, hdl]
  simp only [List.filter_cons, hf, List.filter_nil, if_true]
  rw [if_neg (by simp)]
  simp only [List.map_cons, List.map_nil, List.mergeSort_singleton]
  cases hint with
  | none => simp [Tools.fileEntryFor]
  | some t =>
    by_cases hte : t.isEmpty = true
    · simp [hte, Tools.fileEntryFor]
    · simp only [hte, Bool.false_eq_true, if_false]
      by_cases hp : strIncludes (normalizeName f) ((normalizeName t).take 20) = true
      · simp [hp, Tools.fileEntryFor]
      · simp [hp, Tools.fileEntryFor]

/-- C5: content resolution in `saveConversation` follows the fixed
priority. (1) With a (truthy) explicit `file_path`, its contents are used,
failing when the file is missing, with provenance `"file: <path>"`.
(2) Otherwise, with auto-discovery enabled, a workspace root given and a
candidate found, the candidate is used iff its length strictly exceeds 1.5
times the inline content's length, with provenance
`"auto-detected file: <path>"`; at or below the threshold the inline
content is used with provenance `"direct"`. (3) With no candidate, or
(4) with auto-discovery disabled or no workspace root, the inline content
is used with provenance `"direct"`. -/
theorem c5_resolution (fs : FS) (input : Tools.SaveConversationInput) (ws : Option String) :
    (∀ fp, input.file_path = some fp → fp.isEmpty = false →
      (fs.files fp = none →
        Tools.resolveContent fs input ws = Except.error ("File not found: " ++ fp)) ∧
      (∀ text, fs.files fp = some text →
        Tools.resolveContent fs input ws = Except.ok (text, "file: " ++ fp))) ∧
    (∀ w, input.file_path = none → input.auto_find_export = true → ws = some w →
      w.isEmpty = false →
      ∀ found auto,
        Tools.findRecentExportedConversation fs w (some input.title) = some found →
        fs.files found = some auto →
        (((auto.length : Rat) > ((input.content.getD "").length : Rat) * 1.5 →
          Tools.resolveContent fs input ws =
            Except.ok (auto, "auto-detected file: " ++ found)) ∧
         (¬((auto.length : Rat) > ((input.content.getD "").length : Rat) * 1.5) →
          Tools.resolveContent fs input ws =
            Except.ok (input.content.getD "", "direct")))) ∧
    (∀ w, input.file_path = none → input.auto_find_export = true → ws = some w →
      w.isEmpty = false →
      Tools.findRecentExportedConversation fs w (some input.title) = none →
      Tools.resolveContent fs input ws = Except.ok (input.content.getD "", "direct")) ∧
    (input.file_path = none → (input.auto_find_export = false ∨ ws = none ∨ ws = some "") →
      Tools.resolveContent fs input ws = Except.ok (input.content.getD "", "direct")) := by
  refine ⟨?_, ?_, ?_, ?_⟩
  · intro fp hfp hne
    constructor
    · intro hmiss
      simp [Tools.resolveContent, hfp, hne, hmiss]
    · intro text hread
      simp [Tools.resolveContent, hfp, hne, hread]
  · intro w hfp hauto hws hwne found auto hfound hread
    constructor
    · intro hgt
      simp only [Tools.resolveContent, hfp, hauto, hws, hwne, Bool.false_eq_true, if_false]
      rw [hfound]
      simp only []
      rw [hread]
      simp only []
      rw [if_pos hgt]
    · intro hle
      simp only [Tools.resolveContent, hfp, hauto, hws, hwne, Bool.false_eq_true, if_false]
      rw [hfound]
      simp only []
      rw [hread]
      simp only []
      rw [if_neg hle]
  · intro w hfp hauto hws hwne hfound
    simp only [Tools.resolveContent, hfp, hauto, hws, hwne, Bool.false_eq_true, if_false]
    rw [hfound]
  · intro hfp hcase
    rcases hcase with h | h | h
    · cases hwo : ws with
      | none => simp [Tools.resolveContent, hfp, h, hwo]
      | some w =>
        cases hwe : w.isEmpty with
        | false => simp [Tools.resolveContent, hfp, h, hwo, hwe]
        | true => simp [Tools.resolveContent, hfp, h, hwo, hwe]
    · simp [Tools.resolveContent, hfp, h]
    · cases hae : input.auto_find_export with
      | false => simp [Tools.resolveContent, hfp, h, hae]
      | true => simp [Tools.resolveContent, hfp, h, hae, String.isEmpty]

/-- Workspace snapshot holding one discoverable export file of `n`
characters. -/
def fsAuto (n : Nat) : FS :=
  { files := fun p =>
      if p = pathJoin "ws" "cursor_a.md" then some (String.mk (List.replicate n 'x'))
      else none
    dirList := fun d => if d = "ws" then some ["cursor_a.md"] else none }

/-- A save input with inline content of length 100 and auto-discovery on. -/
def inputAuto : Tools.SaveConversationInput :=
  { title := "t", content := some (String.mk (List.replicate 100 'y')), file_path := none,
    is_public := true, tags := none, repo_context := none, file_context := none,
    generate_summary := true, auto_find_export := true }

theorem c5_witness :
    Tools.resolveContent (fsAuto 151) inputAuto (some "ws") =
      Except.ok (String.mk (List.replicate 151 'x'),
        "auto-detected file: " ++ pathJoin "ws" "cursor_a.md") ∧
    Tools.resolveContent (fsAuto 150) inputAuto (some "ws") =
      Except.ok (String.mk (List.replicate 100 'y'), "direct") ∧
    Tools.resolveContent (fsAuto 151)
      { inputAuto with file_path := some "/missing.md" } (some "ws") =
      Except.error "File not found: /missing.md" := by
  refine ⟨?_, ?_, ?_⟩
  · refine ((c5_resolution (fsAuto 151) inputAuto (some "ws")).2.1 "ws" rfl rfl rfl
      (by decide) (pathJoin "ws" "cursor_a.md") (String.mk (List.replicate 151 'x'))
      (findRecent_singleton (fsAuto 151) "ws" "cursor_a.md" (some inputAuto.title)
        (by decide) (by decide))
      (by decide)).1 ?_
    show ((String.mk (List.replicate 151 'x')).length : Rat) >
      ((inputAuto.content.getD "").length : Rat) * 1.5
    norm_num [inputAuto, String.length]
  · refine ((c5_resolution (fsAuto 150) inputAuto (some "ws")).2.1 "ws" rfl rfl rfl
      (by decide) (pathJoin "ws" "cursor_a.md") (String.mk (List.replicate 150 'x'))
      (findRecent_singleton (fsAuto 150) "ws" "cursor_a.md" (some inputAuto.title)
        (by decide) (by decide))
      (by decide)).2 ?_
    show ¬(((String.mk (List.replicate 150 'x')).length : Rat) >
      ((inputAuto.content.getD "").length : Rat) * 1.5)
    norm_num [inputAuto, String.length]
  · exact ((c5_resolution (fsAuto 151) { inputAuto with file_path := some "/missing.md" }
      (some "ws")).1 "/missing.md" rfl (by decide)).1 (by decide)

/-! ## C6 -/

/-- C6: when the resolved content is empty or whitespace-only,
`saveConversation` fails with the empty-content error before any external
call: the result is the error regardless of the embedding and summarization
services (so neither is consulted), and — the failure being a thrown error,
not a completed insert — no record is persisted. -/
theorem c6_empty_content_aborts (fs : FS) (gzipF : List Nat → List Nat)
    (db : List Conversation) (input : Tools.SaveConversationInput)
    (teamId userId : String) (ws : Option String) (newId : String) (now : Nat)
    (content src : String)
    (embed1 embed2 : String → Except String (List Rat))
    (hf1 hf2 : String → Except String String)
    (hres : Tools.resolveContent fs input ws = Except.ok (content, src))
    (hempty : (content.isEmpty || (strTrim content).isEmpty) = true) :
    Tools.saveConversation fs embed1 hf1 gzipF db input teamId userId ws newId now =
      Except.error "No content to save. Please provide either 'content' or 'file_path'." ∧
    Tools.saveConversation fs embed1 hf1 gzipF db input teamId userId ws newId now =
      Tools.saveConversation fs embed2 hf2 gzipF db input teamId userId ws newId now := by
  have h : ∀ (embed : String → Except String (List Rat))
      (hfSummarize : String → Except String String),
      Tools.saveConversation fs embed hfSummarize gzipF db input teamId userId ws newId now =
        Except.error "No content to save. Please provide either 'content' or 'file_path'." := by
    intro embed hfSummarize
    simp only [Tools.saveConversation, hres]
    rw [if_pos hempty]
  exact ⟨h embed1 hf1, (h embed1 hf1).trans (h embed2 hf2).symm⟩

/-- A filesystem with nothing in it. -/
def fsEmptyW : FS := { files := fun _ => none, dirList := fun _ => none }

/-- A save input whose inline content is whitespace-only. -/
def inputWhitespace : Tools.SaveConversationInput :=
  { title := "t", content := some "   ", file_path := none, is_public := true,
    tags := none, repo_context := none, file_context := none,
    generate_summary := true, auto_find_export := false }

theorem c6_witness :
    Tools.saveConversation fsEmptyW (fun _ => Except.ok [1]) (fun _ => Except.ok "s")
      (fun bs => bs) [] inputWhitespace "t1" "alice" none "id1" 0 =
      Except.error "No content to save. Please provide either 'content' or 'file_path'." ∧
    Tools.saveConversation fsEmptyW (fun _ => Except.ok [1]) (fun _ => Except.ok "s")
      (fun bs => bs) [] inputWhitespace "t1" "alice" none "id1" 0 =
      Tools.saveConversation fsEmptyW (fun _ => Except.error "service down")
        (fun _ => Except.error "service down") (fun bs => bs) [] inputWhitespace
        "t1" "alice" none "id1" 0 :=
  c6_empty_content_aborts fsEmptyW (fun bs => bs) [] inputWhitespace "t1" "alice" none
    "id1" 0 "   " "direct" (fun _ => Except.ok [1]) (fun _ => Except.error "service down")
    (fun _ => Except.ok "s") (fun _ => Except.error "service down") rfl (by decide)

/-! ## C10 -/

theorem list_head?_mem {α : Type} {l : List α} {a : α} (h : l.head? = some a) : a ∈ l := by
  cases l with
  | nil => cases h
  | cons x xs =>
    injection h with h
    subst h
    exact List.mem_cons_self _ _

/-- Any path returned by auto-discovery is the join of the workspace with a
file that appeared in the workspace listing. -/
theorem findRecent_mem (fs : FS) (ws : String) (hint : Option String) (p : String)
    (h : Tools.findRecentExportedConversation fs ws hint = some p) :
    ∃ l f, fs.dirList ws = some l ∧ f ∈ l ∧ p = pathJoin ws f := by
  simp only [Tools.findRecentExportedConversation] at h
  cases hdl : fs.dirList ws with
  | none =>
    rw [hdl] at h
    cases h
  | some files =>
    rw [hdl] at h
    simp only [] at h
    by_cases hmd : (files.filter (fun f =>
        strStartsWith f "cursor_" && (strEndsWith f ".md" && !(strIncludes f "jstag")))).length = 0
    · rw [if_pos hmd] at h
      cases h
    · rw [if_neg hmd] at h
      set L := ((files.filter (fun f =>
          strStartsWith f "cursor_" && (strEndsWith f ".md" && !(strIncludes f "jstag")))).map
            (Tools.fileEntryFor fs ws)).mergeSort
          (fun a b => decide (b.mtime ≤ a.mtime)) with hL
      have hentry : ∃ e : Tools.FileEntry, e ∈ L ∧ p = e.path := by
        cases hint with
        | none =>
          simp only [] at h
          cases hh : L.head? with
          | none =>
            rw [hh] at h
            cases h
          | some e =>
            rw [hh] at h
            injection h with h
            exact ⟨e, list_head?_mem hh, h.symm⟩
        | some t =>
          simp only [] at h
          by_cases hte : t.isEmpty = true
          · rw [if_pos hte] at h
            simp only [] at h
            cases hh : L.head? with
            | none =>
              rw [hh] at h
              cases h
            | some e =>
              rw [hh] at h
              injection h with h
              exact ⟨e, list_head?_mem hh, h.symm⟩
          · rw [if_neg hte] at h
            cases hfind : L.find? (fun file =>
                strIncludes (normalizeName file.name) ((normalizeName t).take 20)) with
            | none =>
              rw [hfind] at h
              simp only [] at h
              cases hh : L.head? with
              | none =>
                rw [hh] at h
                cases h
              | some e =>
                rw [hh] at h
                injection h with h
                exact ⟨e, list_head?_mem hh, h.symm⟩
            | some e =>
              rw [hfind] at h
              simp only [] at h
              injection h with h
              exact ⟨e, List.mem_of_find?_eq_some hfind, h.symm⟩
      obtain ⟨e, hmem, hp⟩ := hentry
      rw [hL, List.mem_mergeSort, List.mem_map] at hmem
      obtain ⟨f, hfmem, hfe⟩ := hmem
      rw [List.mem_filter] at hfmem
      exact ⟨files, f, rfl, hfmem.1, by rw [hp, ← hfe]; rfl⟩

/-- C10 (amended): `findRecentExportedConversation` swallows listing errors
(a failed `readdirSync` yields `null`, never a thrown error), and under a
consistent snapshot — every listed file is readable — a save whose
`file_path` is absent never fails during content resolution. The original
claim is too strong: the read of the discovered path happens outside the
`try`, so a listed-but-unreadable candidate aborts the save (see the
counterexample). -/
theorem c10_discovery_errors_swallowed :
    (∀ (fs : FS) (ws : String) (hint : Option String), fs.dirList ws = none →
      Tools.findRecentExportedConversation fs ws hint = none) ∧
    (∀ (fs : FS) (input : Tools.SaveConversationInput) (ws : Option String),
      (∀ d l f, fs.dirList d = some l → f ∈ l → (fs.files (pathJoin d f)).isSome = true) →
      input.file_path = none →
      ∃ out, Tools.resolveContent fs input ws = Except.ok out) := by
  constructor
  · intro fs ws hint hdl
    simp only [Tools.findRecentExportedConversation, hdl]
  · intro fs input ws hcons hfp
    simp only [Tools.resolveContent, hfp]
    cases hae : input.auto_find_export with
    | false => exact ⟨_, rfl⟩
    | true =>
      cases hws : ws with
      | none => exact ⟨_, rfl⟩
      | some w =>
        simp only []
        by_cases hwe : w.isEmpty = true
        · rw [if_pos hwe]
          exact ⟨_, rfl⟩
        · rw [if_neg hwe]
          simp only []
          cases hfr : Tools.findRecentExportedConversation fs w (some input.title) with
          | none => exact ⟨_, rfl⟩
          | some found =>
            simp only []
            obtain ⟨l, f, hdl, hfmem, hpf⟩ := findRecent_mem fs w (some input.title) found hfr
            obtain ⟨autoContent, hauto⟩ :=
              Option.isSome_iff_exists.mp (hcons w l f hdl hfmem)
            rw [hpf, hauto]
            simp only []
            by_cases hgt : (autoContent.length : Rat) >
                ((input.content.getD "").length : Rat) * 1.5
            · rw [if_pos hgt]
              exact ⟨_, rfl⟩
            · rw [if_neg hgt]
              exact ⟨_, rfl⟩

theorem c10_witness :
    Tools.findRecentExportedConversation fsEmptyW "ws" (some "t") = none ∧
    (∃ out, Tools.resolveContent fsEmptyW inputAuto (some "ws") = Except.ok out) :=
  ⟨c10_discovery_errors_swallowed.1 fsEmptyW "ws" (some "t") rfl,
   c10_discovery_errors_swallowed.2 fsEmptyW inputAuto (some "ws")
     (fun d l f hdl _ => by cases hdl) rfl⟩

/-- A workspace whose listing names a candidate export file that is not
readable (for example a broken symlink, or a file removed between the
listing and the read). -/
def fsBroken : FS :=
  { files := fun _ => none
    dirList := fun d => if d = "ws" then some ["cursor_a.md"] else none }

/-- A save request without `file_path`, with auto-discovery enabled. -/
def inputBroken : Tools.SaveConversationInput :=
  { title := "t", content := some "hi", file_path := none, is_public := true,
    tags := none, repo_context := none, file_context := none,
    generate_summary := true, auto_find_export := true }

/-- C10 counterexample: with a listed but unreadable candidate, the save
aborts with a read error even though `file_path` was not supplied — the
`readFileSync` on the discovered path is outside the `try/catch`, so
auto-discovery can abort the save. -/
theorem c10_cex_autodiscovery_abort :
    inputBroken.file_path = none ∧
    Tools.saveConversation fsBroken (fun _ => Except.ok [1]) (fun _ => Except.ok "s")
      (fun bs => bs) [] inputBroken "t1" "alice" (some "ws") "id1" 0 =
      Except.error ("ENOENT: no such file or directory, open " ++
        pathJoin "ws" "cursor_a.md") := by
  constructor
  · rfl
  · have hfr : Tools.findRecentExportedConversation fsBroken "ws" (some inputBroken.title) =
        some (pathJoin "ws" "cursor_a.md") :=
      findRecent_singleton fsBroken "ws" "cursor_a.md" (some inputBroken.title)
        (by decide) (by decide)
    have hres : Tools.resolveContent fsBroken inputBroken (some "ws") =
        Except.error ("ENOENT: no such file or directory, open " ++
          pathJoin "ws" "cursor_a.md") := by
      simp only [Tools.resolveContent]
      rw [show inputBroken.file_path = none from rfl]
      simp only []
      rw [show inputBroken.auto_find_export = true from rfl]
      rw [show ("ws".isEmpty : Bool) = false from rfl]
      simp only [Bool.false_eq_true, if_false]
      rw [hfr]
      simp only []
      rw [show fsBroken.files (pathJoin "ws" "cursor_a.md") = none from rfl]
    simp only [Tools.saveConversation, hres]

/-! ## C3 -/

theorem b64EncodeBytes_ne_nil (bs : List Nat) (h : bs ≠ []) : b64EncodeBytes bs ≠ [] := by
  cases bs with
  | nil => exact absurd rfl h
  | cons a t =>
    cases t with
    | nil => simp [b64EncodeBytes]
    | cons b t2 =>
      cases t2 with
      | nil => simp [b64EncodeBytes]
      | cons c r => simp [b64EncodeBytes]

theorem b64Encode_isEmpty_false (bs : List Nat) (h : bs ≠ []) :
    (b64Encode bs).isEmpty = false := by
  rw [Bool.eq_false_iff]
  intro hc
  apply b64EncodeBytes_ne_nil bs h
  simpa [b64Encode] using congrArg String.data ((String.isEmpty_iff _).mp hc)

/-- Decompressing a compressed string recovers it, given the zlib contract
(gunzip inverts gzip on byte streams, and gzip emits bytes). -/
theorem compress_decompress (gzipF : List Nat → List Nat)
    (gunzipF : List Nat → Option (List Nat))
    (hinv : ∀ bs, (∀ b ∈ bs, b < 256) → gunzipF (gzipF bs) = some bs)
    (hbytes : ∀ bs, (∀ b ∈ bs, b < 256) → ∀ y ∈ gzipF bs, y < 256)
    (s : String) :
    SupabaseDB.decompressContent gunzipF (SupabaseDB.compressContent gzipF s) = s := by
  simp only [SupabaseDB.decompressContent, SupabaseDB.compressContent]
  rw [b64_roundtrip _ (hbytes _ (utf8Encode_bytes s)), hinv _ (utf8Encode_bytes s)]
  simp only []
  exact utf8_roundtrip s

/-- C3: under the zlib contract (gunzip inverts gzip on byte streams, gzip
emits nonempty byte output), `decompressContent ∘ compressContent` is the
identity on strings; consequently a successful save immediately followed by
`getConversation` under the same `(team_id, requester_id)` context, with a
fresh row id, returns a record whose content equals the resolved content
exactly. -/
theorem c3_compression_roundtrip (gzipF : List Nat → List Nat)
    (gunzipF : List Nat → Option (List Nat))
    (hinv : ∀ bs, (∀ b ∈ bs, b < 256) → gunzipF (gzipF bs) = some bs)
    (hbytes : ∀ bs, (∀ b ∈ bs, b < 256) → ∀ y ∈ gzipF bs, y < 256)
    (hne : ∀ bs, gzipF bs ≠ []) :
    (∀ s, SupabaseDB.decompressContent gunzipF (SupabaseDB.compressContent gzipF s) = s) ∧
    (∀ (fs : FS) (embed : String → Except String (List Rat))
      (hfSummarize : String → Except String String) (db : List Conversation)
      (input : Tools.SaveConversationInput) (teamId userId : String)
      (ws : Option String) (newId : String) (now : Nat)
      (res : Tools.SaveResult) (db2 : List Conversation) (content src : String),
      (∀ c ∈ db, c.id ≠ newId) →
      Tools.saveConversation fs embed hfSummarize gzipF db input teamId userId ws
        newId now = Except.ok (res, db2) →
      Tools.resolveContent fs input ws = Except.ok (content, src) →
      ∃ rec, SupabaseDB.getConversation gunzipF db2 res.id teamId userId = some rec ∧
        rec.content = content) := by
  refine ⟨compress_decompress gzipF gunzipF hinv hbytes, ?_⟩
  intro fs embed hfSummarize db input teamId userId ws newId now res db2 content src
    hfresh hsave hres
  simp only [Tools.saveConversation, hres] at hsave
  by_cases hempty : (content.isEmpty || (strTrim content).isEmpty) = true
  · rw [if_pos hempty] at hsave
    cases hsave
  · rw [if_neg hempty] at hsave
    cases hembed : embed (input.title ++ "\n\n" ++ content) with
    | error e =>
      rw [hembed] at hsave
      cases hsave
    | ok emb =>
      rw [hembed] at hsave
      simp only [SupabaseDB.saveConversation] at hsave
      rw [Except.ok.injEq, Prod.mk.injEq] at hsave
      obtain ⟨hres_eq, hdb2⟩ := hsave
      have hid : res.id = newId := by rw [← hres_eq]
      subst hdb2
      rw [hid]
      have hcontentne : (SupabaseDB.compressContent gzipF content).isEmpty = false := by
        simp only [SupabaseDB.compressContent]
        exact b64Encode_isEmpty_false _ (hne _)
      simp only [SupabaseDB.getConversation]
      rw [List.find?_cons_of_pos _ (by simp)]
      simp only []
      rw [if_neg (by simp), if_neg (by simp [hcontentne])]
      exact ⟨_, rfl, compress_decompress gzipF gunzipF hinv hbytes content⟩

theorem c3_witness :
    SupabaseDB.decompressContent (fun l => match l with | 0 :: t => some t | _ => none)
      (SupabaseDB.compressContent (fun bs => 0 :: bs) "hello") = "hello" :=
  (c3_compression_roundtrip (fun bs => 0 :: bs)
    (fun l => match l with | 0 :: t => some t | _ => none)
    (fun bs _ => rfl)
    (fun bs h y hy => by
      rcases List.mem_cons.mp hy with h0 | h1
      · omega
      · exact h y h1)
    (fun bs => List.cons_ne_nil 0 bs)).1 "hello"
